import Mathlib

/-
Verification development for the csvmd CSV-to-Markdown converter.

The source (src/lib.rs, src/error.rs) is shallowly embedded here:
text is modelled as `List Char` (one `Char` per byte for the ASCII
inputs analysed), fallible conversions that return a value by
result return `Except CsvMdError`, the chunked streaming conversion
(whose sink can hold bytes even when it fails) returns the pair of
the sink contents and the outcome, and the imperative loops become
folds and structural recursions. The external record reader (the
csv crate) is not part of the repository; it is modelled from the
spec (section 1 and section 6) as `parseRecords` / `readRecords` /
`parseCSV` below.
-/

deriving instance DecidableEq for Except

namespace Csvmd

/-- Embeds `HeaderAlignment` from src/lib.rs. -/
inductive HeaderAlignment where
  | Left : HeaderAlignment
  | Center : HeaderAlignment
  | Right : HeaderAlignment
deriving DecidableEq, Repr

/-- Embeds `Config` from src/lib.rs; the `delimiter: u8` field is modelled
as a `Char` (the source converts it with `delimiter as char` where it is
compared character-wise). -/
structure Config where
  has_headers : Bool
  flexible : Bool
  delimiter : Char
  header_alignment : HeaderAlignment
deriving DecidableEq, Repr

/-- Embeds `impl Default for Config` from src/lib.rs. -/
def defaultConfig : Config :=
  ⟨true, true, ',', HeaderAlignment.Left⟩

/-- Embeds the error kinds of `CsvMdError` from src/error.rs; only the
`Csv` variant is ever produced by the pure model (the `Io` and `Fmt`
variants arise from real I/O, which the embedding treats as infallible). -/
inductive CsvMdError where
  | Io : CsvMdError
  | Csv : CsvMdError
  | Fmt : CsvMdError
deriving DecidableEq, Repr

/-- Parser state of the record-reader model: at the start of a field,
inside an unquoted field, inside a quoted field, or just after the
closing quote of a quoted field. -/
inductive QuoteState where
  | fieldStart : QuoteState
  | unquoted : QuoteState
  | quoted : QuoteState
  | afterQuote : QuoteState
deriving DecidableEq, Repr

/-- Modelled from the spec: the external record-reader collaborator
(the csv crate, section 1 and section 6 of the spec) which yields, for a
character stream and a configured delimiter, the sequence of tokenized
records, honoring quoting of the delimiter and of record terminators,
treating a doubled quote inside a quoted field as an escaped quote, and
skipping blank lines. `field` is the field accumulated so far, `rec` the
fields of the current record. -/
def parseRecords (delim : Char) :
    List Char → QuoteState → List Char → List (List Char) → List (List (List Char))
  | [], st, field, rec =>
      if st = QuoteState.fieldStart then
        (if rec = [] then [] else [rec ++ [field]])
      else [rec ++ [field]]
  | c :: rest, st, field, rec =>
      if st = QuoteState.quoted then
        (if c = '"' then parseRecords delim rest QuoteState.afterQuote field rec
         else parseRecords delim rest QuoteState.quoted (field ++ [c]) rec)
      else if c = '"' then
        (if st = QuoteState.fieldStart then
           parseRecords delim rest QuoteState.quoted field rec
         else if st = QuoteState.afterQuote then
           parseRecords delim rest QuoteState.quoted (field ++ [c]) rec
         else parseRecords delim rest QuoteState.unquoted (field ++ [c]) rec)
      else if c = delim then
        parseRecords delim rest QuoteState.fieldStart [] (rec ++ [field])
      else if c = '\n' ∨ c = '\r' then
        (if st = QuoteState.fieldStart ∧ rec = [] then
           parseRecords delim rest QuoteState.fieldStart [] []
         else (rec ++ [field]) :: parseRecords delim rest QuoteState.fieldStart [] [])
      else
        parseRecords delim rest QuoteState.unquoted (field ++ [c]) rec

/-- Modelled from the spec: the record-by-record column check the reader
performs when `flexible` is false — the records before the first one whose
field count differs from `n`, paired with the structured parse failure
when such a record exists (the mismatching record and everything after it
are never yielded). -/
def takeWhileLen (n : Nat) :
    List (List (List Char)) → List (List (List Char)) × Option CsvMdError
  | [] => ([], none)
  | r :: rest =>
      if r.length = n then
        let p := takeWhileLen n rest
        (r :: p.1, p.2)
      else ([], some CsvMdError.Csv)

/-- Modelled from the spec: the record reader as configured by every entry
point of src/lib.rs (`has_headers(false)`, `flexible(config.flexible)`,
`delimiter(config.delimiter)`), seen as the lazy stream the entry points
iterate: the records it yields before any failure, and the failure itself
when one occurs. When `flexible` is false the first record fixes the
expected field count and the reader signals a structured parse failure at
the first later record with a different count, per section 4.3 and
section 7 of the spec and the `From` conversion in src/error.rs. -/
def readRecords (flexible : Bool) (delim : Char) (text : List Char) :
    List (List (List Char)) × Option CsvMdError :=
  let recs := parseRecords delim text QuoteState.fieldStart [] []
  match recs with
  | [] => ([], none)
  | r0 :: rest =>
      if flexible then (r0 :: rest, none)
      else
        let p := takeWhileLen r0.length rest
        (r0 :: p.1, p.2)

/-- The reader's overall verdict, as observed by the collecting loops of
src/lib.rs (`let record = result?`): every record on success, and the
failure alone when the stream fails (the caller's partially accumulated
records are discarded with it). -/
def parseCSV (flexible : Bool) (delim : Char) (text : List Char) :
    Except CsvMdError (List (List (List Char))) :=
  match readRecords flexible delim text with
  | (recs, none) => Except.ok recs
  | (_, some e) => Except.error e

/-- Models Rust `str::replace` with a one-character pattern, as used by
`escape_markdown_cell` in src/lib.rs. -/
def replaceChar (pat : Char) (repl : List Char) : List Char → List Char
  | [] => []
  | c :: rest => (if c = pat then repl else [c]) ++ replaceChar pat repl rest

/-- Embeds `escape_markdown_cell` from src/lib.rs: three sequential
`replace` calls, pipe to backslash-pipe, then line feed to `<br>`, then
carriage return to nothing. -/
def escape_markdown_cell (field : List Char) : List Char :=
  replaceChar '\r' [] (replaceChar '\n' ("<br>".toList) (replaceChar '|' ['\\', '|'] field))

/-- Embeds `write_table_row` from src/lib.rs: push `'|'`, then for each
column index below `maxCols` append a space, the cell (`row.get(i)` or the
empty string), a space and `'|'`, then one newline. -/
def write_table_row (row : List (List Char)) (maxCols : Nat) : List Char :=
  ((List.range maxCols).foldl (fun acc i => acc ++ ([' '] ++ row.getD i [] ++ [' ', '|'])) ['|'])
    ++ ['\n']

/-- Embeds `write_table_row_to_writer` from src/lib.rs, which duplicates
the body of `write_table_row` against a writer. -/
def write_table_row_to_writer (row : List (List Char)) (maxCols : Nat) : List Char :=
  ((List.range maxCols).foldl (fun acc i => acc ++ ([' '] ++ row.getD i [] ++ [' ', '|'])) ['|'])
    ++ ['\n']

/-- Embeds the `match alignment` marker of `write_header_separator` and
`write_header_separator_to_writer` in src/lib.rs. -/
def sepMarker : HeaderAlignment → List Char
  | HeaderAlignment.Left => " --- |".toList
  | HeaderAlignment.Center => " :---: |".toList
  | HeaderAlignment.Right => " ---: |".toList

/-- Embeds `write_header_separator` from src/lib.rs. -/
def write_header_separator (maxCols : Nat) (alignment : HeaderAlignment) : List Char :=
  ((List.range maxCols).foldl (fun acc _ => acc ++ sepMarker alignment) ['|']) ++ ['\n']

/-- Embeds `write_header_separator_to_writer` from src/lib.rs. -/
def write_header_separator_to_writer (maxCols : Nat) (alignment : HeaderAlignment) : List Char :=
  ((List.range maxCols).foldl (fun acc _ => acc ++ sepMarker alignment) ['|']) ++ ['\n']

/-- Embeds the running `max_cols = max_cols.max(row.len())` accumulation
shared by `csv_to_markdown`, `csv_to_markdown_streaming` and
`csv_to_markdown_two_pass_streaming` in src/lib.rs. -/
def maxRecordLen {α : Type} (recs : List (List α)) : Nat :=
  recs.foldl (fun m r => Nat.max m r.length) 0

/-- Embeds the output loop of `csv_to_markdown` in src/lib.rs: enumerate
the collected rows, write each, and after the row at index 0 write the
header separator when configured. -/
def renderAllAux (cfg : Config) (maxCols : Nat) : Nat → List (List (List Char)) → List Char
  | _, [] => []
  | i, r :: rest =>
      write_table_row r maxCols
      ++ (if i = 0 ∧ cfg.has_headers = true then
            write_header_separator maxCols cfg.header_alignment
          else [])
      ++ renderAllAux cfg maxCols (i + 1) rest

/-- Embeds the second-pass output loop shared by the three streaming entry
points in src/lib.rs: escape each record, write it, and after the first
row (tracked by the `first_row` flag) write the header separator when
configured. -/
def renderStream (cfg : Config) (maxCols : Nat) : List (List (List Char)) → Bool → List Char
  | [], _ => []
  | r :: rest, firstRow =>
      write_table_row_to_writer (r.map escape_markdown_cell) maxCols
      ++ (if firstRow = true ∧ cfg.has_headers = true then
            write_header_separator_to_writer maxCols cfg.header_alignment
              ++ renderStream cfg maxCols rest false
          else renderStream cfg maxCols rest firstRow)

/-- Embeds `csv_to_markdown` (Strategy A) from src/lib.rs: collect every
record escaped, track the maximum row length, return the empty string for
an empty record list, otherwise render all rows. The capacity estimate of
`estimate_output_size` has no observable effect and is omitted. -/
def csv_to_markdown (text : List Char) (cfg : Config) : Except CsvMdError (List Char) :=
  match parseCSV cfg.flexible cfg.delimiter text with
  | Except.error e => Except.error e
  | Except.ok recs =>
      let rows := recs.map (fun r => r.map escape_markdown_cell)
      let maxCols := maxRecordLen rows
      if rows.isEmpty then Except.ok []
      else Except.ok (renderAllAux cfg maxCols 0 rows)

/-- Embeds `csv_to_markdown_streaming` (Strategy B) from src/lib.rs: the
input is buffered whole, the reader runs once over the buffer to compute
the maximum column count, then a second time to render. -/
def csv_to_markdown_streaming (text : List Char) (cfg : Config) : Except CsvMdError (List Char) :=
  match parseCSV cfg.flexible cfg.delimiter text with
  | Except.error e => Except.error e
  | Except.ok recs =>
      match parseCSV cfg.flexible cfg.delimiter text with
      | Except.error e => Except.error e
      | Except.ok recs2 => Except.ok (renderStream cfg (maxRecordLen recs) recs2 true)

/-- Embeds `csv_to_markdown_two_pass_streaming` (Strategy C) from
src/lib.rs: the reader runs once over the seekable source to compute the
maximum column count, the source is repositioned to its start, and the
reader runs a second time to render; at the data level both passes see
the same character sequence. -/
def csv_to_markdown_two_pass_streaming (text : List Char) (cfg : Config) :
    Except CsvMdError (List Char) :=
  match parseCSV cfg.flexible cfg.delimiter text with
  | Except.error e => Except.error e
  | Except.ok recs =>
      match parseCSV cfg.flexible cfg.delimiter text with
      | Except.error e => Except.error e
      | Except.ok recs2 => Except.ok (renderStream cfg (maxRecordLen recs) recs2 true)

/-- Embeds `count_csv_columns` from src/lib.rs: one plus the number of
delimiters outside quotes, where a doubled quote is skipped and any other
quote toggles the in-quotes flag. The quote arm of the `match` precedes
the delimiter arm, exactly as in the source. -/
def count_csv_columns_go (delim : Char) : List Char → Bool → Nat → Nat
  | [], _, count => count
  | '"' :: '"' :: rest, inQ, count => count_csv_columns_go delim rest inQ count
  | '"' :: rest, inQ, count => count_csv_columns_go delim rest (!inQ) count
  | c :: rest, inQ, count =>
      if c = delim ∧ inQ = false then count_csv_columns_go delim rest inQ (count + 1)
      else count_csv_columns_go delim rest inQ count

/-- Embeds `count_csv_columns` from src/lib.rs (entry point: count starts
at 1 with the in-quotes flag clear). -/
def count_csv_columns (line : List Char) (delim : Char) : Nat :=
  count_csv_columns_go delim line false 1

/-- Models Rust `str::split('\n')`: every part between newline characters,
including a leading, trailing or middle empty part. -/
def splitNL : List Char → List (List Char)
  | [] => [[]]
  | '\n' :: rest => [] :: splitNL rest
  | c :: rest =>
      match splitNL rest with
      | [] => [[c]]
      | p :: ps => (c :: p) :: ps

/-- Models the carriage-return stripping of Rust `str::lines`: one
trailing `'\r'` is removed from a segment that was terminated by `'\n'`. -/
def stripCR (l : List Char) : List Char :=
  if l.getLast? = some '\r' then l.dropLast else l

/-- Models Rust `str::lines` as used by `csv_to_markdown_chunked_streaming`
in src/lib.rs: split on `'\n'`, drop the final empty segment produced by a
trailing `'\n'`, and strip one trailing `'\r'` from every segment that was
terminated by `'\n'` (the final unterminated segment keeps its characters). -/
def rustLines (s : List Char) : List (List Char) :=
  match s with
  | [] => []
  | _ =>
      let parts := splitNL s
      if s.getLast? = some '\n' then (parts.dropLast).map stripCR
      else (parts.dropLast).map stripCR ++ [(parts.getLast?).getD []]

/-- State of the chunk loop of `csv_to_markdown_chunked_streaming` in
src/lib.rs: the running `max_cols` and the `partial_line` carry-over. -/
structure ChunkState where
  maxCols : Nat
  pendingLine : List Char
deriving DecidableEq, Repr

/-- Embeds one iteration of the chunk loop of
`csv_to_markdown_chunked_streaming` in src/lib.rs: concatenate the
carried partial line with the chunk, split into lines; when the content
ends with a newline or carriage return all lines count as complete and
the carried partial line is left unchanged (exactly as in the source,
where `partial_line` is not cleared on that path); otherwise the last
line (or, for a single line, the whole content) becomes the new partial
line; every complete non-empty line updates the running maximum through
`count_csv_columns`. -/
def processChunk (delim : Char) (st : ChunkState) (chunk : List Char) : ChunkState :=
  let full := st.pendingLine ++ chunk
  let ls := rustLines full
  let pc : List Char × List (List Char) :=
    if full.getLast? = some '\n' ∨ full.getLast? = some '\r' then
      ⟨st.pendingLine, ls⟩
    else if 1 < ls.length then
      ⟨(ls.getLast?).getD [], ls.dropLast⟩
    else
      ⟨full, []⟩
  ⟨pc.2.foldl
      (fun m l => if l.isEmpty then m else Nat.max m (count_csv_columns l delim))
      st.maxCols,
    pc.1⟩

/-- Models the fixed-size reads of `csv_to_markdown_chunked_streaming` in
src/lib.rs: `k` is the full chunk capacity, `n` the capacity left in the
current chunk, `acc` the current chunk reversed. A zero `chunk_size`
never consumes the source (handled in `chunkSplit`). -/
def chunkGo (k : Nat) : List Char → Nat → List Char → List (List Char)
  | [], _, acc => if acc.isEmpty then [] else [acc.reverse]
  | c :: rest, 0, acc => acc.reverse :: chunkGo k rest (k - 1) [c]
  | c :: rest, n + 1, acc => chunkGo k rest n (c :: acc)

/-- Models the sequence of chunks read by
`csv_to_markdown_chunked_streaming` in src/lib.rs: with a zero
`chunk_size` the read into an empty buffer returns 0 bytes and the loop
ends at once having consumed nothing; otherwise the source is consumed in
chunks of at most `chunkSize` characters. -/
def chunkSplit (chunkSize : Nat) (text : List Char) : List (List Char) :=
  match chunkSize with
  | 0 => []
  | k + 1 => chunkGo (k + 1) text (k + 1) []

/-- Embeds the first pass of `csv_to_markdown_chunked_streaming` in
src/lib.rs: fold the chunk loop over all chunks starting from a zero
maximum and an empty partial line. -/
def chunkedScan (delim : Char) (chunks : List (List Char)) : ChunkState :=
  chunks.foldl (processChunk delim) ⟨0, []⟩

/-- Models Rust `char::is_whitespace` — the Unicode `White_Space`
property — as used by the `str::trim` call on the final partial line of
`csv_to_markdown_chunked_streaming` in src/lib.rs. -/
def rustIsWhitespace (c : Char) : Bool :=
  decide (c = '\t' ∨ c = '\n' ∨ c = '\u000B' ∨ c = '\u000C' ∨ c = '\r' ∨ c = ' '
    ∨ c = '\u0085' ∨ c = '\u00A0' ∨ c = '\u1680'
    ∨ (0x2000 ≤ c.toNat ∧ c.toNat ≤ 0x200A)
    ∨ c = '\u2028' ∨ c = '\u2029' ∨ c = '\u202F' ∨ c = '\u205F' ∨ c = '\u3000')

/-- Embeds the column-count resolution of
`csv_to_markdown_chunked_streaming` in src/lib.rs: the chunk-loop maximum,
further raised by the final partial line when trimming Unicode whitespace
from it leaves it non-empty. -/
def chunkedMaxCols (delim : Char) (chunkSize : Nat) (text : List Char) : Nat :=
  let st := chunkedScan delim (chunkSplit chunkSize text)
  if st.pendingLine.any (fun c => !(rustIsWhitespace c)) then
    Nat.max st.maxCols (count_csv_columns st.pendingLine delim)
  else st.maxCols

/-- Embeds `csv_to_markdown_chunked_streaming` (Strategy D) from
src/lib.rs as the pair (bytes written to the sink, outcome): the bytes
read are copied verbatim to a temporary spill file while the line-oriented
scanner estimates the column count; the spill file is then rewound and its
records are rendered one by one against the estimated count. When the
record stream fails during this second pass the call aborts with that
error, but every row rendered before the failure has already been written
to the sink, so those bytes remain part of the sink contents. -/
def csv_to_markdown_chunked_streaming (text : List Char) (cfg : Config) (chunkSize : Nat) :
    List Char × Option CsvMdError :=
  let temp := (chunkSplit chunkSize text).flatten
  let p := readRecords cfg.flexible cfg.delimiter temp
  (renderStream cfg (chunkedMaxCols cfg.delimiter chunkSize text) p.1 true, p.2)

/-- Modelled from the spec (section 4.2): the cell slots of one rendered
row, one per column index below `width`, each the field at that index or
the empty string if absent. -/
def cellsOf (row : List (List Char)) (width : Nat) : List (List Char) :=
  (List.range width).map (fun i => row.getD i [])

/-- Modelled from the spec (section 4.2 and section 6): a row is `'|'`,
then for each cell a single space, the cell, a single space and `'|'`,
terminated by one newline. -/
def rowOfCells (cells : List (List Char)) : List Char :=
  ['|'] ++ (cells.flatMap (fun c => [' '] ++ c ++ [' ', '|'])) ++ ['\n']

/-- Modelled from the spec (section 4.2): `render_row(fields, width)`. -/
def render_row_spec (fields : List (List Char)) (width : Nat) : List Char :=
  rowOfCells (cellsOf fields width)

/-- Modelled from the spec (section 4.2):
`render_header_separator(width, alignment)` is `'|'` followed by `width`
repetitions of the alignment marker cell, terminated by one newline. -/
def render_header_separator_spec (width : Nat) (alignment : HeaderAlignment) : List Char :=
  ['|'] ++ (List.replicate width (sepMarker alignment)).flatten ++ ['\n']

/-- Modelled from the spec (section 4.1): the per-character escaping
contract of the cell escaper. -/
def escapeCharSpec (c : Char) : List Char :=
  if c = '|' then ['\\', '|']
  else if c = '\n' then "<br>".toList
  else if c = '\r' then []
  else [c]

/-- Shape of a non-empty table: the first rendered row, then the header
separator exactly when `has_headers` is set, then the remaining rendered
rows and nothing else. -/
def headeredOutput (cfg : Config) (w : Nat) (r0 : List (List Char))
    (rest : List (List (List Char))) : List Char :=
  write_table_row_to_writer (r0.map escape_markdown_cell) w
  ++ (if cfg.has_headers = true then write_header_separator_to_writer w cfg.header_alignment
      else [])
  ++ (rest.map (fun r => write_table_row_to_writer (r.map escape_markdown_cell) w)).flatten

end Csvmd

namespace Csvmd

/- Helper lemmas about the embedded operations. -/

theorem row_writer_eq (row : List (List Char)) (w : Nat) :
    write_table_row_to_writer row w = write_table_row row w := rfl

theorem sep_writer_eq (w : Nat) (a : HeaderAlignment) :
    write_header_separator_to_writer w a = write_header_separator w a := rfl

theorem foldl_append_f {α β : Type} (f : α → List β) :
    ∀ (l : List α) (init : List β),
      l.foldl (fun acc x => acc ++ f x) init = init ++ (l.map f).flatten := by
  intro l
  induction l with
  | nil => intro init; simp
  | cons x xs ih => intro init; simp [ih, List.append_assoc]

theorem maxRecordLen_nil {α : Type} : maxRecordLen ([] : List (List α)) = 0 := rfl

theorem foldl_max_le_init {α : Type} :
    ∀ (l : List (List α)) (a : Nat), a ≤ l.foldl (fun m r => Nat.max m r.length) a := by
  intro l
  induction l with
  | nil => intro a; simp
  | cons x xs ih =>
      intro a
      calc a ≤ Nat.max a x.length := Nat.le_max_left _ _
        _ ≤ xs.foldl (fun m r => Nat.max m r.length) (Nat.max a x.length) := ih _
        _ = (x :: xs).foldl (fun m r => Nat.max m r.length) a := rfl

theorem foldl_max_mono {α : Type} :
    ∀ (l : List (List α)) (a b : Nat), a ≤ b →
      l.foldl (fun m r => Nat.max m r.length) a ≤ l.foldl (fun m r => Nat.max m r.length) b := by
  intro l
  induction l with
  | nil => intro a b h; simpa using h
  | cons x xs ih =>
      intro a b h
      exact ih _ _ (max_le_max h (le_refl x.length))

theorem maxRecordLen_ge {α : Type} (recs : List (List α)) (r : List α) (h : r ∈ recs) :
    r.length ≤ maxRecordLen recs := by
  induction recs with
  | nil => cases h
  | cons x xs ih =>
      rcases List.mem_cons.mp h with h1 | h2
      · subst h1
        calc r.length ≤ Nat.max 0 r.length := Nat.le_max_right _ _
          _ ≤ xs.foldl (fun m r => Nat.max m r.length) (Nat.max 0 r.length) :=
              foldl_max_le_init xs _
          _ = maxRecordLen (r :: xs) := rfl
      · calc r.length ≤ maxRecordLen xs := ih h2
          _ ≤ xs.foldl (fun m r => Nat.max m r.length) (Nat.max 0 x.length) :=
              foldl_max_mono xs 0 _ (Nat.zero_le _)
          _ = maxRecordLen (x :: xs) := rfl

theorem foldl_max_attained {α : Type} :
    ∀ (l : List (List α)) (a : Nat),
      l.foldl (fun m r => Nat.max m r.length) a = a
      ∨ ∃ r, r ∈ l ∧ l.foldl (fun m r => Nat.max m r.length) a = r.length := by
  intro l
  induction l with
  | nil => intro a; exact Or.inl rfl
  | cons x xs ih =>
      intro a
      have step : (x :: xs).foldl (fun m r => Nat.max m r.length) a
          = xs.foldl (fun m r => Nat.max m r.length) (Nat.max a x.length) := rfl
      rcases ih (Nat.max a x.length) with h1 | h2
      · rcases Nat.le_total a x.length with hle | hle
        · refine Or.inr ⟨x, List.mem_cons_self _ _, ?_⟩
          rw [step, h1]
          exact Nat.max_eq_right hle
        · refine Or.inl ?_
          rw [step, h1]
          exact Nat.max_eq_left hle
      · rcases h2 with ⟨r, hr, heq⟩
        exact Or.inr ⟨r, List.mem_cons_of_mem _ hr, by rw [step, heq]⟩

theorem maxRecordLen_attained {α : Type} (recs : List (List α)) (h : recs ≠ []) :
    ∃ r, r ∈ recs ∧ r.length = maxRecordLen recs := by
  cases recs with
  | nil => exact absurd rfl h
  | cons x xs =>
      rcases foldl_max_attained (x :: xs) 0 with h1 | h2
      · refine ⟨x, List.mem_cons_self _ _, ?_⟩
        have hx : x.length ≤ maxRecordLen (x :: xs) :=
          maxRecordLen_ge _ _ (List.mem_cons_self _ _)
        have : maxRecordLen (x :: xs) = 0 := h1
        omega
      · rcases h2 with ⟨r, hr, heq⟩
        exact ⟨r, hr, heq.symm⟩

theorem maxRecordLen_map_esc (recs : List (List (List Char))) :
    maxRecordLen (recs.map (fun r => r.map escape_markdown_cell)) = maxRecordLen recs := by
  simp [maxRecordLen, List.foldl_map]

end Csvmd

namespace Csvmd

theorem write_table_row_eq_spec (row : List (List Char)) (w : Nat) :
    write_table_row row w = render_row_spec row w := by
  unfold write_table_row render_row_spec rowOfCells cellsOf
  rw [foldl_append_f (fun i => [' '] ++ row.getD i [] ++ [' ', '|']) (List.range w) ['|']]
  simp [List.flatMap, List.map_map, Function.comp_def]

theorem write_header_separator_eq_spec (w : Nat) (a : HeaderAlignment) :
    write_header_separator w a = render_header_separator_spec w a := by
  unfold write_header_separator render_header_separator_spec
  rw [foldl_append_f (fun _ => sepMarker a) (List.range w) ['|']]
  simp [List.map_const', List.length_range]

theorem renderAllAux_succ (cfg : Config) (w : Nat) :
    ∀ (rows : List (List (List Char))) (i : Nat),
      renderAllAux cfg w (i + 1) rows = (rows.map (fun r => write_table_row r w)).flatten := by
  intro rows
  induction rows with
  | nil => intro i; rfl
  | cons r rest ih => intro i; simp [renderAllAux, ih]

theorem renderStream_not_first (cfg : Config) (w : Nat) :
    ∀ recs : List (List (List Char)),
      renderStream cfg w recs false
        = (recs.map (fun r => write_table_row_to_writer (r.map escape_markdown_cell) w)).flatten := by
  intro recs
  induction recs with
  | nil => rfl
  | cons r rest ih => simp [renderStream, ih]

theorem renderStream_no_headers (cfg : Config) (w : Nat) (hh : cfg.has_headers = false) :
    ∀ (recs : List (List (List Char))) (b : Bool),
      renderStream cfg w recs b
        = (recs.map (fun r => write_table_row_to_writer (r.map escape_markdown_cell) w)).flatten := by
  intro recs
  induction recs with
  | nil => intro b; rfl
  | cons r rest ih => intro b; simp [renderStream, hh, ih]

theorem renderStream_cons (cfg : Config) (w : Nat) (r : List (List Char))
    (rest : List (List (List Char))) :
    renderStream cfg w (r :: rest) true = headeredOutput cfg w r rest := by
  unfold headeredOutput
  cases hh : cfg.has_headers with
  | false => simp [renderStream, hh, renderStream_no_headers cfg w hh]
  | true => simp [renderStream, hh, renderStream_not_first]

theorem renderAllAux_eq_renderStream (cfg : Config) (w : Nat)
    (recs : List (List (List Char))) :
    renderAllAux cfg w 0 (recs.map (fun r => r.map escape_markdown_cell))
      = renderStream cfg w recs true := by
  cases recs with
  | nil => rfl
  | cons r rest =>
      rw [renderStream_cons]
      unfold headeredOutput
      cases hh : cfg.has_headers with
      | false =>
          simp [renderAllAux, hh, renderAllAux_succ, row_writer_eq, List.map_map,
            Function.comp_def]
      | true =>
          simp [renderAllAux, hh, renderAllAux_succ, row_writer_eq, sep_writer_eq,
            List.map_map, Function.comp_def]

end Csvmd

namespace Csvmd

theorem csv_to_markdown_eq_streaming (text : List Char) (cfg : Config) :
    csv_to_markdown text cfg = csv_to_markdown_streaming text cfg := by
  unfold csv_to_markdown csv_to_markdown_streaming
  cases h : parseCSV cfg.flexible cfg.delimiter text with
  | error e => rfl
  | ok recs =>
      cases recs with
      | nil => rfl
      | cons r rest =>
          simp only [maxRecordLen_map_esc, renderAllAux_eq_renderStream]
          simp

theorem streaming_eq_two_pass (text : List Char) (cfg : Config) :
    csv_to_markdown_streaming text cfg = csv_to_markdown_two_pass_streaming text cfg := rfl

theorem chunkGo_flatten (k : Nat) :
    ∀ (l : List Char) (n : Nat) (acc : List Char),
      (chunkGo k l n acc).flatten = acc.reverse ++ l := by
  intro l
  induction l with
  | nil =>
      intro n acc
      cases acc <;> simp [chunkGo]
  | cons c rest ih =>
      intro n acc
      cases n with
      | zero => simp [chunkGo, ih]
      | succ m => simp [chunkGo, ih]

theorem chunkSplit_flatten (k : Nat) (text : List Char) (hk : 0 < k) :
    (chunkSplit k text).flatten = text := by
  cases k with
  | zero => omega
  | succ m => simp [chunkSplit, chunkGo_flatten]

theorem chunked_pos (text : List Char) (cfg : Config) (k : Nat) (hk : 0 < k) :
    csv_to_markdown_chunked_streaming text cfg k =
      (renderStream cfg (chunkedMaxCols cfg.delimiter k text)
          (readRecords cfg.flexible cfg.delimiter text).1 true,
        (readRecords cfg.flexible cfg.delimiter text).2) := by
  unfold csv_to_markdown_chunked_streaming
  rw [chunkSplit_flatten k text hk]

theorem chunked_zero (text : List Char) (cfg : Config) :
    csv_to_markdown_chunked_streaming text cfg 0 = ([], none) := by
  unfold csv_to_markdown_chunked_streaming
  simp [chunkSplit, readRecords, parseRecords, renderStream]

theorem readRecords_of_parse_ok (flexible : Bool) (delim : Char) (text : List Char)
    (recs : List (List (List Char)))
    (h : parseCSV flexible delim text = Except.ok recs) :
    readRecords flexible delim text = (recs, none) := by
  unfold parseCSV at h
  rcases hr : readRecords flexible delim text with ⟨recs', e?⟩
  rw [hr] at h
  cases e? with
  | none =>
      simp at h
      rw [h]
  | some e' => simp at h

theorem readRecords_of_parse_error (flexible : Bool) (delim : Char) (text : List Char)
    (e : CsvMdError)
    (h : parseCSV flexible delim text = Except.error e) :
    (readRecords flexible delim text).2 = some e := by
  unfold parseCSV at h
  rcases hr : readRecords flexible delim text with ⟨recs', e?⟩
  rw [hr] at h
  cases e? with
  | none => simp at h
  | some e' =>
      simp at h
      rw [h]

end Csvmd

namespace Csvmd

theorem cellsOf_nil (w : Nat) : cellsOf [] w = List.replicate w [] := by
  simp [cellsOf, List.map_const', List.length_range]

theorem cellsOf_cons (a : List Char) (r : List (List Char)) (w : Nat) :
    cellsOf (a :: r) (w + 1) = a :: cellsOf r w := by
  simp [cellsOf, List.range_succ_eq_map, List.map_map, Function.comp_def]

theorem cellsOf_length (row : List (List Char)) (w : Nat) : (cellsOf row w).length = w := by
  simp [cellsOf, List.length_range]

theorem cellsOf_pad (r : List (List Char)) :
    ∀ w : Nat, r.length ≤ w → cellsOf r w = r ++ List.replicate (w - r.length) [] := by
  induction r with
  | nil => intro w _; simp [cellsOf_nil]
  | cons a r ih =>
      intro w h
      cases w with
      | zero => simp at h
      | succ m =>
          rw [cellsOf_cons]
          have hm : r.length ≤ m := by simpa [Nat.succ_le_succ_iff] using h
          simp [ih m hm, Nat.succ_sub_succ]

theorem replaceChar_append (pat : Char) (repl : List Char) :
    ∀ a b : List Char,
      replaceChar pat repl (a ++ b) = replaceChar pat repl a ++ replaceChar pat repl b := by
  intro a b
  induction a with
  | nil => rfl
  | cons c rest ih => simp [replaceChar, ih]

theorem escape_cons (c : Char) (rest : List Char) :
    escape_markdown_cell (c :: rest) = escapeCharSpec c ++ escape_markdown_cell rest := by
  unfold escape_markdown_cell escapeCharSpec
  by_cases h1 : c = '|'
  · subst h1
    simp [replaceChar, replaceChar_append]
  · by_cases h2 : c = '\n'
    · subst h2
      simp [replaceChar, replaceChar_append]
    · by_cases h3 : c = '\r'
      · subst h3
        simp [replaceChar, replaceChar_append]
      · simp [replaceChar, replaceChar_append, h1, h2, h3]

end Csvmd

namespace Csvmd

theorem streaming_ok (text : List Char) (cfg : Config) (recs : List (List (List Char)))
    (h : parseCSV cfg.flexible cfg.delimiter text = Except.ok recs) :
    csv_to_markdown_streaming text cfg
      = Except.ok (renderStream cfg (maxRecordLen recs) recs true) := by
  unfold csv_to_markdown_streaming
  rw [h]

theorem markdown_ok (text : List Char) (cfg : Config) (recs : List (List (List Char)))
    (h : parseCSV cfg.flexible cfg.delimiter text = Except.ok recs) :
    csv_to_markdown text cfg
      = Except.ok (renderStream cfg (maxRecordLen recs) recs true) := by
  rw [csv_to_markdown_eq_streaming]
  exact streaming_ok text cfg recs h

theorem chunked_ok (text : List Char) (cfg : Config) (k : Nat)
    (recs : List (List (List Char))) (hk : 0 < k)
    (h : parseCSV cfg.flexible cfg.delimiter text = Except.ok recs) :
    csv_to_markdown_chunked_streaming text cfg k
      = (renderStream cfg (chunkedMaxCols cfg.delimiter k text) recs true, none) := by
  rw [chunked_pos text cfg k hk, readRecords_of_parse_ok cfg.flexible cfg.delimiter text recs h]

end Csvmd

namespace Csvmd

/-- Sample input used by several witnesses: the ragged table of the
`test_csv_with_uneven_columns` unit test in src/lib.rs. -/
def sampleText : List Char := "A,B,C\nX,Y\nP,Q,R,S".toList

/-- The record sequence the reader model yields for `sampleText`. -/
def sampleRecs : List (List (List Char)) :=
  [["A".toList, "B".toList, "C".toList],
   ["X".toList, "Y".toList],
   ["P".toList, "Q".toList, "R".toList, "S".toList]]

/-- Claim C1, counterexample: the claim is false as stated. On the input
`"a\nb",c` (a quoted field with an embedded newline, then a second field)
Strategy D's line-oriented scanner estimates one column while the record
reader sees one record of two fields, so the bytes Strategy D writes to
its sink differ from the byte-identical A/B/C output even with a chunk
size larger than the whole input. -/
theorem strategies_equiv_cex :
    csv_to_markdown ("\"a\nb\",c\n".toList) defaultConfig
        = Except.ok ("| a<br>b | c |\n| --- | --- |\n".toList)
    ∧ csv_to_markdown_chunked_streaming ("\"a\nb\",c\n".toList) defaultConfig 64
        = ("| a<br>b |\n| --- |\n".toList, none)
    ∧ ("| a<br>b |\n| --- |\n".toList : List Char)
        ≠ ("| a<br>b | c |\n| --- | --- |\n".toList : List Char) := by decide

/-- Claim C1 (amended): for every input and Config, Strategies A, B and C
produce byte-identical output; Strategy D (any positive chunk size)
succeeds and writes to its sink exactly the bytes of Strategy A's output
whenever its line-oriented column estimate equals the true maximum record
length — but not in general. -/
theorem strategies_equiv_amended (text : List Char) (cfg : Config) (k : Nat) (hk : 0 < k) :
    csv_to_markdown text cfg = csv_to_markdown_streaming text cfg
    ∧ csv_to_markdown_streaming text cfg = csv_to_markdown_two_pass_streaming text cfg
    ∧ (∀ recs, parseCSV cfg.flexible cfg.delimiter text = Except.ok recs →
        chunkedMaxCols cfg.delimiter k text = maxRecordLen recs →
        csv_to_markdown text cfg
            = Except.ok (csv_to_markdown_chunked_streaming text cfg k).1
          ∧ (csv_to_markdown_chunked_streaming text cfg k).2 = none) := by
  refine ⟨csv_to_markdown_eq_streaming text cfg, streaming_eq_two_pass text cfg, ?_⟩
  intro recs hp hest
  rw [chunked_ok text cfg k recs hk hp, markdown_ok text cfg recs hp, hest]
  exact ⟨rfl, rfl⟩

/-- Claim C1, witness: at a concrete ragged input where the estimate is
exact, all four strategies agree byte for byte and Strategy D succeeds. -/
theorem strategies_equiv_amended_witness :
    (0 : Nat) < 3
    ∧ csv_to_markdown ("a,b\nc,d\n".toList) defaultConfig
        = csv_to_markdown_streaming ("a,b\nc,d\n".toList) defaultConfig
    ∧ csv_to_markdown ("a,b\nc,d\n".toList) defaultConfig
        = Except.ok (csv_to_markdown_chunked_streaming ("a,b\nc,d\n".toList) defaultConfig 3).1
    ∧ (csv_to_markdown_chunked_streaming ("a,b\nc,d\n".toList) defaultConfig 3).2 = none :=
  ⟨by decide,
    (strategies_equiv_amended ("a,b\nc,d\n".toList) defaultConfig 3 (by decide)).1,
    ((strategies_equiv_amended ("a,b\nc,d\n".toList) defaultConfig 3 (by decide)).2.2
      [["a".toList, "b".toList], ["c".toList, "d".toList]] (by decide) (by decide)).1,
    ((strategies_equiv_amended ("a,b\nc,d\n".toList) defaultConfig 3 (by decide)).2.2
      [["a".toList, "b".toList], ["c".toList, "d".toList]] (by decide) (by decide)).2⟩

/-- Claim C2, counterexample: the claim is false as stated. On the input
`"a\nb",c` the true maximum record length is 2, but Strategy D resolves
its `max_cols` through the line-oriented estimate, which yields 1. -/
theorem max_columns_cex :
    parseCSV defaultConfig.flexible defaultConfig.delimiter ("\"a\nb\",c\n".toList)
        = Except.ok [["a\nb".toList, "c".toList]]
    ∧ maxRecordLen [["a\nb".toList, "c".toList]] = 2
    ∧ chunkedMaxCols defaultConfig.delimiter 64 ("\"a\nb\",c\n".toList) = 1
    ∧ chunkedMaxCols defaultConfig.delimiter 64 ("\"a\nb\",c\n".toList)
        ≠ maxRecordLen [["a\nb".toList, "c".toList]] := by decide

/-- Claim C2 (amended): for Strategies A, B and C the resolved
`max_columns` equals the true maximum record length over the whole input
(the escaped rows used by Strategy A have the same lengths as the raw
records used by B and C; the fold dominates every record length, is
attained by some record when records exist, and is 0 for an empty input),
and every emitted data row consists of exactly `max_columns` cell slots;
Strategy D instead uses the line-oriented estimate, which can differ. -/
theorem max_columns_amended (text : List Char) (cfg : Config)
    (recs : List (List (List Char)))
    (h : parseCSV cfg.flexible cfg.delimiter text = Except.ok recs) :
    maxRecordLen (recs.map (fun r => r.map escape_markdown_cell)) = maxRecordLen recs
    ∧ (∀ r, r ∈ recs → r.length ≤ maxRecordLen recs)
    ∧ (recs ≠ [] → ∃ r, r ∈ recs ∧ r.length = maxRecordLen recs)
    ∧ (recs = [] → maxRecordLen recs = 0)
    ∧ (∀ (r : List (List Char)) (w : Nat),
        write_table_row r w = rowOfCells (cellsOf r w) ∧ (cellsOf r w).length = w) := by
  refine ⟨maxRecordLen_map_esc recs, fun r hr => maxRecordLen_ge recs r hr,
    fun hne => maxRecordLen_attained recs hne, fun he => by rw [he]; rfl, ?_⟩
  intro r w
  exact ⟨write_table_row_eq_spec r w, cellsOf_length r w⟩

/-- Claim C2, witness: the resolved width of the ragged sample is its true
maximum record length and is attained. -/
theorem max_columns_amended_witness :
    parseCSV defaultConfig.flexible defaultConfig.delimiter sampleText = Except.ok sampleRecs
    ∧ maxRecordLen (sampleRecs.map (fun r => r.map escape_markdown_cell)) = maxRecordLen sampleRecs
    ∧ (∃ r, r ∈ sampleRecs ∧ r.length = maxRecordLen sampleRecs) :=
  ⟨by decide,
    (max_columns_amended sampleText defaultConfig sampleRecs (by decide)).1,
    (max_columns_amended sampleText defaultConfig sampleRecs (by decide)).2.2.1 (by decide)⟩

/-- Claim C3, counterexample: the claim is false as stated. On the input
`"a\nb",c` Strategy D passes width 1 to the row renderer although the
only record has 2 fields, and the rendered output drops the field `c`. -/
theorem no_truncation_cex :
    parseCSV defaultConfig.flexible defaultConfig.delimiter ("\"a\nb\",c\n".toList)
        = Except.ok [["a\nb".toList, "c".toList]]
    ∧ chunkedMaxCols defaultConfig.delimiter 64 ("\"a\nb\",c\n".toList)
        < (["a\nb".toList, "c".toList] : List (List Char)).length
    ∧ csv_to_markdown_chunked_streaming ("\"a\nb\",c\n".toList) defaultConfig 64
        = ("| a<br>b |\n| --- |\n".toList, none) := by decide

/-- Claim C3 (amended): under Strategies A, B and C the width passed to
the row renderer dominates the length of every record (raw for B and C,
escaped for A), and a record no longer than the width is rendered with all
its fields in order followed by empty padding cells, so no field is ever
dropped; Strategy D's estimated width can undershoot and truncate. -/
theorem no_truncation_amended (text : List Char) (cfg : Config)
    (recs : List (List (List Char)))
    (h : parseCSV cfg.flexible cfg.delimiter text = Except.ok recs) :
    (∀ r, r ∈ recs → r.length ≤ maxRecordLen recs)
    ∧ (∀ r, r ∈ recs →
        (r.map escape_markdown_cell).length
          ≤ maxRecordLen (recs.map (fun r => r.map escape_markdown_cell)))
    ∧ (∀ (r : List (List Char)) (w : Nat), r.length ≤ w →
        cellsOf r w = r ++ List.replicate (w - r.length) []) := by
  refine ⟨fun r hr => maxRecordLen_ge recs r hr, ?_, fun r w hw => cellsOf_pad r w hw⟩
  intro r hr
  exact maxRecordLen_ge _ _ (List.mem_map_of_mem _ hr)

/-- Claim C3, witness: on the ragged sample every record fits the resolved
width, and the two-field record padded to width 4 keeps both fields. -/
theorem no_truncation_amended_witness :
    parseCSV defaultConfig.flexible defaultConfig.delimiter sampleText = Except.ok sampleRecs
    ∧ (∀ r, r ∈ sampleRecs → r.length ≤ maxRecordLen sampleRecs)
    ∧ cellsOf ["X".toList, "Y".toList] 4
        = ["X".toList, "Y".toList] ++ List.replicate 2 [] :=
  ⟨by decide,
    (no_truncation_amended sampleText defaultConfig sampleRecs (by decide)).1,
    by
      have h := (no_truncation_amended sampleText defaultConfig sampleRecs (by decide)).2.2
        ["X".toList, "Y".toList] 4 (by decide)
      simpa using h⟩

end Csvmd

namespace Csvmd

/-- Claim C4: when the record reader signals a failure (in particular a
column-count mismatch with `flexible` off), every entry point returns that
error: nothing is padded, no result value is produced, and for Strategy A
no output string is returned; Strategy D's outcome is that failure (its
sink may already hold the rows rendered before the failure, which the
claim does not constrain). -/
theorem parse_failure_aborts (text : List Char) (cfg : Config) (e : CsvMdError)
    (hflex : cfg.flexible = false)
    (h : parseCSV cfg.flexible cfg.delimiter text = Except.error e) :
    csv_to_markdown text cfg = Except.error e
    ∧ csv_to_markdown_streaming text cfg = Except.error e
    ∧ csv_to_markdown_two_pass_streaming text cfg = Except.error e
    ∧ ∀ k : Nat, 0 < k → (csv_to_markdown_chunked_streaming text cfg k).2 = some e := by
  refine ⟨?_, ?_, ?_, ?_⟩
  · unfold csv_to_markdown
    rw [h]
  · unfold csv_to_markdown_streaming
    rw [h]
  · unfold csv_to_markdown_two_pass_streaming
    rw [h]
  · intro k hk
    rw [chunked_pos text cfg k hk]
    exact readRecords_of_parse_error cfg.flexible cfg.delimiter text e h

/-- Claim C4, witness: a two-column record followed by a one-column record
with `flexible` off is a parse failure, and Strategy A returns it. -/
theorem parse_failure_aborts_witness :
    (Config.mk true false ',' HeaderAlignment.Left).flexible = false
    ∧ parseCSV false ',' ("a,b\nc\n".toList) = Except.error CsvMdError.Csv
    ∧ csv_to_markdown ("a,b\nc\n".toList) (Config.mk true false ',' HeaderAlignment.Left)
        = Except.error CsvMdError.Csv :=
  ⟨by decide, by decide,
    (parse_failure_aborts ("a,b\nc\n".toList) (Config.mk true false ',' HeaderAlignment.Left)
      CsvMdError.Csv (by decide) (by decide)).1⟩

/-- Claim C5: the cell escaper is a total character-wise map: every pipe
becomes the two characters backslash-pipe, every line feed becomes the
four characters `<br>`, every carriage return is deleted, and every other
character passes through unchanged one-to-one. -/
theorem escape_matches_spec (s : List Char) :
    escape_markdown_cell s = s.flatMap escapeCharSpec := by
  induction s with
  | nil => rfl
  | cons c rest ih => rw [escape_cons, ih, List.flatMap_cons]

/-- Claim C6: for every record and width, both row renderers emit exactly
the pipe character, then for each column index below the width a single
space, the field at that index (empty when absent), a single space and a
pipe, terminated by exactly one newline. -/
theorem render_row_matches_spec (row : List (List Char)) (w : Nat) :
    write_table_row row w = render_row_spec row w
    ∧ write_table_row_to_writer row w = render_row_spec row w :=
  ⟨write_table_row_eq_spec row w, by
    rw [row_writer_eq]
    exact write_table_row_eq_spec row w⟩

/-- Claim C7: for every non-empty input, under every strategy, the output
is exactly the first rendered row, then the header separator exactly when
`has_headers` is set and never otherwise, then the remaining rendered rows
(a single-record input therefore still gets a separator when
`has_headers` is set). -/
theorem header_separator_placement (text : List Char) (cfg : Config) (k : Nat)
    (r0 : List (List Char)) (rest : List (List (List Char))) (hk : 0 < k)
    (h : parseCSV cfg.flexible cfg.delimiter text = Except.ok (r0 :: rest)) :
    (∃ w, csv_to_markdown text cfg = Except.ok (headeredOutput cfg w r0 rest))
    ∧ (∃ w, csv_to_markdown_streaming text cfg = Except.ok (headeredOutput cfg w r0 rest))
    ∧ (∃ w, csv_to_markdown_two_pass_streaming text cfg
        = Except.ok (headeredOutput cfg w r0 rest))
    ∧ (∃ w, csv_to_markdown_chunked_streaming text cfg k
        = (headeredOutput cfg w r0 rest, none)) := by
  refine ⟨⟨maxRecordLen (r0 :: rest), ?_⟩, ⟨maxRecordLen (r0 :: rest), ?_⟩,
    ⟨maxRecordLen (r0 :: rest), ?_⟩, ⟨chunkedMaxCols cfg.delimiter k text, ?_⟩⟩
  · rw [markdown_ok text cfg (r0 :: rest) h, renderStream_cons]
  · rw [streaming_ok text cfg (r0 :: rest) h, renderStream_cons]
  · rw [← streaming_eq_two_pass, streaming_ok text cfg (r0 :: rest) h, renderStream_cons]
  · rw [chunked_ok text cfg k (r0 :: rest) hk h, renderStream_cons]

/-- Claim C7, witness: a concrete two-record input with the default
Config, under Strategy A. -/
theorem header_separator_placement_witness :
    (0 : Nat) < 4
    ∧ parseCSV defaultConfig.flexible defaultConfig.delimiter ("Name,Age\nJohn,25\n".toList)
        = Except.ok [["Name".toList, "Age".toList], ["John".toList, "25".toList]]
    ∧ (∃ w, csv_to_markdown ("Name,Age\nJohn,25\n".toList) defaultConfig
        = Except.ok (headeredOutput defaultConfig w ["Name".toList, "Age".toList]
            [["John".toList, "25".toList]])) :=
  ⟨by decide, by decide,
    (header_separator_placement ("Name,Age\nJohn,25\n".toList) defaultConfig 4
      ["Name".toList, "Age".toList] [["John".toList, "25".toList]]
      (by decide) (by decide)).1⟩

/-- Claim C8: for every width and alignment, both separator renderers emit
exactly the pipe character followed by width repetitions of the alignment
marker cell, terminated by one newline. -/
theorem header_separator_matches_spec (w : Nat) (a : HeaderAlignment) :
    write_header_separator w a = render_header_separator_spec w a
    ∧ write_header_separator_to_writer w a = render_header_separator_spec w a :=
  ⟨write_header_separator_eq_spec w a, by
    rw [sep_writer_eq]
    exact write_header_separator_eq_spec w a⟩

/-- Claim C9: an input with zero records produces exactly zero bytes of
output under every strategy and every Config. -/
theorem empty_input_empty_output (text : List Char) (cfg : Config)
    (h : parseCSV cfg.flexible cfg.delimiter text = Except.ok []) :
    csv_to_markdown text cfg = Except.ok []
    ∧ csv_to_markdown_streaming text cfg = Except.ok []
    ∧ csv_to_markdown_two_pass_streaming text cfg = Except.ok []
    ∧ ∀ k : Nat, csv_to_markdown_chunked_streaming text cfg k = ([], none) := by
  refine ⟨?_, ?_, ?_, ?_⟩
  · unfold csv_to_markdown
    rw [h]
    rfl
  · unfold csv_to_markdown_streaming
    rw [h]
    rfl
  · unfold csv_to_markdown_two_pass_streaming
    rw [h]
    rfl
  · intro k
    cases k with
    | zero => exact chunked_zero text cfg
    | succ m =>
        rw [chunked_ok text cfg (m + 1) [] (Nat.succ_pos m) h]
        rfl

/-- Claim C9, witness: the empty input yields zero records and the empty
output, for Strategy A and for Strategy D at chunk size 7. -/
theorem empty_input_empty_output_witness :
    parseCSV defaultConfig.flexible defaultConfig.delimiter ("".toList) = Except.ok []
    ∧ csv_to_markdown ("".toList) defaultConfig = Except.ok []
    ∧ csv_to_markdown_chunked_streaming ("".toList) defaultConfig 7 = ([], none) :=
  ⟨by decide,
    (empty_input_empty_output ("".toList) defaultConfig (by decide)).1,
    (empty_input_empty_output ("".toList) defaultConfig (by decide)).2.2.2 7⟩

/-- Claim C10: with chunk size 0 the read loop of Strategy D consumes
nothing (no chunk is ever produced), and for every input and Config the
conversion returns success with zero bytes written. -/
theorem chunk_size_zero_ok (text : List Char) (cfg : Config) :
    chunkSplit 0 text = []
    ∧ csv_to_markdown_chunked_streaming text cfg 0 = ([], none) :=
  ⟨rfl, chunked_zero text cfg⟩

end Csvmd
